import Mathlib

/-!
# cloud-app-hive: the application registry and its HTTP handlers

A shallow embedding of `api/main.go`.

* The package-level slice `applications` becomes an explicit state of type
  `List ApplicationConfig` that every handler receives and returns.
* A handler returns the response it writes (status code and the Go value it
  hands to the JSON serializer) together with the registry afterwards.
* `context.BindJSON` is a call into the web framework.  The handler
  `createApplication` takes the binder as an argument, so what is proved about
  the handler alone holds for every binder.  `BindJSON` below is the binder
  the program really runs: `encoding/json` decoding into the declared struct
  type, followed by the framework validator.
-/

namespace CloudAppHive

/-! ## Data model (main.go, lines 66-117) -/

/-- CodeSource is `type CodeSource int64`. -/
abbrev CodeSource := Int

/-- GITHUB is the first constant of the `iota` block. -/
def GITHUB : CodeSource := 0

/-- ZIP is the second constant of the `iota` block. -/
def ZIP : CodeSource := 1

/-- GithubSourceInfo is the struct of a repository reference. -/
structure GithubSourceInfo where
  Repo : String
  Branch : String
deriving DecidableEq, Repr

/-- ZipSourceInfo is the struct of an archive reference. -/
structure ZipSourceInfo where
  ZipFile : String
deriving DecidableEq, Repr

/-- The method `func (g GithubSourceInfo) CodeSource() CodeSource`. -/
def GithubSourceInfo.CodeSource (_g : GithubSourceInfo) : CodeSource := GITHUB

/-- The method `func (z ZipSourceInfo) CodeSource() CodeSource`. -/
def ZipSourceInfo.CodeSource (_z : ZipSourceInfo) : CodeSource := ZIP

/-- A value of the interface type `CodeSourceInfo`: the nil interface, or a
dynamic value of one of the two types of the package that implement it. -/
inductive CodeSourceInfo where
  | nil
  | github (g : GithubSourceInfo)
  | zip (z : ZipSourceInfo)
deriving DecidableEq, Repr

/-- Calling `CodeSource()` through the interface dispatches on the dynamic
type; on the nil interface the call is a nil dereference, a run-time panic,
rendered as `none`. -/
def CodeSourceInfo.CodeSource : CodeSourceInfo → Option CodeSource
  | .nil => none
  | .github g => some g.CodeSource
  | .zip z => some z.CodeSource

/-- ApplicationConfig is the struct of one registered application.  `Port` is a
Go `int`. -/
structure ApplicationConfig where
  Name : String
  Description : String
  Domain : String
  Port : Int
  Platform : String
  Version : String
  Source : CodeSourceInfo
deriving DecidableEq, Repr

/-- The zero value of `ApplicationConfig`, what `var newApplication
ApplicationConfig` declares. -/
def ApplicationConfig.zero : ApplicationConfig :=
  { Name := "", Description := "", Domain := "", Port := 0, Platform := "",
    Version := "", Source := .nil }

/-! ## The registry (main.go, lines 119-144) -/

/-- The initial value of the package-level slice `applications`. -/
def applications : List ApplicationConfig :=
  [ { Name := "my-back-end-app"
      Description := "My nodejs back-end app"
      Domain := "example.com"
      Port := 8080
      Platform := "NodeJS"
      Version := "16.x"
      Source := .github { Repo := "github.com/username/my-back-end-app", Branch := "main" } },
    { Name := "my-front-end-app"
      Description := "My react front-end app"
      Domain := "example.com"
      Port := 80
      Platform := "React"
      Version := "17.x"
      Source := .zip { ZipFile := "https://example.com/my-front-end-app.zip" } } ]

/-! ## Responses -/

/-- The Go value a handler passes to `context.JSON` / `context.IndentedJSON`. -/
inductive Payload where
  /-- A `map[string]interface{}` / `gin.H` literal with string values, as its
  key-value pairs in the order of the source. -/
  | H (fields : List (String × String))
  /-- A `[]ApplicationConfig`. -/
  | apps (xs : List ApplicationConfig)
  /-- An `ApplicationConfig`. -/
  | app (a : ApplicationConfig)
deriving DecidableEq, Repr

/-- What a handler writes: the status code and the serialized value. -/
structure Response where
  status : Nat
  body : Payload
deriving DecidableEq, Repr

/-- Looks a key up in a `gin.H` payload. -/
def Payload.field (p : Payload) (key : String) : Option String :=
  match p with
  | .H fields => (fields.find? (fun kv => kv.1 == key)).map Prod.snd
  | _ => none

def StatusOK : Nat := 200
def StatusCreated : Nat := 201
def StatusBadRequest : Nat := 400

/-! ## Handlers (main.go, lines 58-64 and 146-170) -/

/-- HealthCheck answers 200 with a fixed payload and does not touch the
registry. -/
def HealthCheck (registry : List ApplicationConfig) : Response × List ApplicationConfig :=
  (⟨StatusOK, .H [("data", "Server is up and running")]⟩, registry)

/-- getApplications responds with the whole registry. -/
def getApplications (registry : List ApplicationConfig) : Response × List ApplicationConfig :=
  (⟨StatusOK, .apps registry⟩, registry)

/-- createApplication binds the request body to a fresh `ApplicationConfig`;
when the binder reports an error it answers 400 with the error envelope and
returns, otherwise it appends the bound value to the registry and answers 201
with it.  A binder receives the body and the value to fill and returns the
filled value and the error, `none` for `nil`. -/
def createApplication {β : Type}
    (bind : β → ApplicationConfig → ApplicationConfig × Option String)
    (body : β) (registry : List ApplicationConfig) : Response × List ApplicationConfig :=
  let newApplication : ApplicationConfig := ApplicationConfig.zero
  match bind body newApplication with
  | (_, some err) =>
      (⟨StatusBadRequest,
        .H [("name", "invalid_body"), ("message", "Cannot parse body as JSON"), ("error", err)]⟩,
       registry)
  | (newApplication, none) =>
      (⟨StatusCreated, .app newApplication⟩, registry ++ [newApplication])

/-! ## Request bodies -/

/-- A JSON value as the decoder reads it.  A number literal without fraction
and exponent is `int`; one with a fraction or an exponent is `frac` and keeps
its text. -/
inductive JSON where
  | null
  | bool (b : Bool)
  | int (n : Int)
  | frac (lit : String)
  | str (s : String)
  | arr (items : List JSON)
  | obj (members : List (String × JSON))

/-- What `json.Decoder.Decode` finds on the request body: no complete JSON
value (empty, truncated or malformed input, with the error text of the
decoder), or the first JSON value of the stream. -/
inductive RequestBody where
  | unreadable (err : String)
  | json (v : JSON)

/-! ## The binder: `context.BindJSON(&newApplication)`

`BindJSON` is `json.NewDecoder(body).Decode(obj)` followed by the framework
validator.  Both are driven by the declaration of `ApplicationConfig`: the
`json` tag of a field is the key that selects it, the Go type of a field
decides which JSON values it takes, and the validator looks for `binding`
tags. -/

/-- The fields of `ApplicationConfig`. -/
inductive Field where
  | name | description | domain | port | platform | version | source
deriving DecidableEq, Repr

/-- The fields in declaration order. -/
def Field.all : List Field :=
  [.name, .description, .domain, .port, .platform, .version, .source]

/-- The `json` tag of a field. -/
def Field.jsonName : Field → String
  | .name => "name"
  | .description => "description"
  | .domain => "domain"
  | .port => "port"
  | .platform => "platform"
  | .version => "version"
  | .source => "source"

/-- The Go type of a field, as `reflect.Type.String` prints it. -/
def Field.goType : Field → String
  | .port => "int"
  | .source => "main.CodeSourceInfo"
  | _ => "string"

/-- The struct tags of a field other than `json`, as key-value pairs. -/
def Field.tags : Field → List (String × String)
  | .source =>
      [("validate", "required"),
       ("example", "GithubSourceInfo\x7bRepo: \"my-app\", Branch: \"main\"\x7d")]
  | _ => [("validate", "required")]

/-- The case folding of one character of a key: ASCII letters to upper case,
and the two non-ASCII characters whose simple case folding is an ASCII letter,
U+017F (long s) and U+212A (Kelvin sign).  No other character folds to an
ASCII character, and the names of the fields are ASCII. -/
def foldRune (c : Char) : Char :=
  if c = Char.ofNat 0x017F then 'S'
  else if c = Char.ofNat 0x212A then 'K'
  else c.toUpper

/-- The folded form of a key. -/
def foldName (s : String) : List Char := s.data.map foldRune

/-- The field a key of the object selects: the field whose name is the key,
else the field whose name equals the key under case folding, else none (the
member is skipped). -/
def lookupField (key : String) : Option Field :=
  match Field.all.find? (fun f => f.jsonName == key) with
  | some f => some f
  | none => Field.all.find? (fun f => foldName f.jsonName == foldName key)

/-- The decoder state: the value being filled and the first saved error. -/
structure decodeState where
  target : ApplicationConfig
  savedError : Option String
deriving DecidableEq, Repr

/-- The method `saveError` keeps the first error only. -/
def decodeState.saveError (d : decodeState) (err : String) : decodeState :=
  match d.savedError with
  | none => { d with savedError := some err }
  | some _ => d

/-- The text of an `UnmarshalTypeError` raised on a field. -/
def typeError (value : String) (f : Field) : String :=
  "json: cannot unmarshal " ++ value ++ " into Go struct field ApplicationConfig."
    ++ f.jsonName ++ " of type " ++ f.goType

/-- The `Value` an `UnmarshalTypeError` reports for a JSON value whose kind the
target does not take. -/
def JSON.valueName : JSON → String
  | .null => "null"
  | .bool _ => "bool"
  | .int _ => "number"
  | .frac _ => "number"
  | .str _ => "string"
  | .arr _ => "array"
  | .obj _ => "object"

/-- Assigns a string to a field of kind `string`. -/
def setString (f : Field) (s : String) (a : ApplicationConfig) : ApplicationConfig :=
  match f with
  | .name => { a with Name := s }
  | .description => { a with Description := s }
  | .domain => { a with Domain := s }
  | .platform => { a with Platform := s }
  | .version => { a with Version := s }
  | _ => a

/-- Decodes one JSON value into one field.
* `null` sets an interface to nil and has no effect on a string or an int.
* A field of type `string` takes a JSON string.
* The field of type `int` takes a number literal that `strconv.ParseInt`
  reads as a 64-bit integer (`int` is 64 bits wide on a 64-bit platform).
* The field of type `CodeSourceInfo` is an interface with a method and no
  `UnmarshalJSON`: the decoder has no concrete type to build, so every value
  other than `null` is a type error.
A type error is saved and the field keeps its value. -/
def storeValue (f : Field) (v : JSON) (d : decodeState) : decodeState :=
  match f, v with
  | .source, .null => { d with target := { d.target with Source := .nil } }
  | _, .null => d
  | .source, v => d.saveError (typeError v.valueName f)
  | .port, .int n =>
      if -(2 ^ 63 : Int) ≤ n ∧ n < (2 ^ 63 : Int) then
        { d with target := { d.target with Port := n } }
      else d.saveError (typeError ("number " ++ toString n) f)
  | .port, .frac lit => d.saveError (typeError ("number " ++ lit) f)
  | .port, v => d.saveError (typeError v.valueName f)
  | f, .str s => { d with target := setString f s d.target }
  | f, v => d.saveError (typeError v.valueName f)

/-- Decodes one member of the object: a key that selects no field is skipped. -/
def storeMember (d : decodeState) (kv : String × JSON) : decodeState :=
  match lookupField kv.1 with
  | none => d
  | some f => storeValue f kv.2 d

/-- The function `json.Unmarshal` on a target of type `*ApplicationConfig`: `null` has no
effect, an object is decoded member by member in order (a later member
overwrites an earlier one), any other value is a type error.  Returns the
target afterwards and the first saved error. -/
def Unmarshal (v : JSON) (a : ApplicationConfig) : ApplicationConfig × Option String :=
  match v with
  | .null => (a, none)
  | .obj members =>
      let d := members.foldl storeMember ⟨a, none⟩
      (d.target, d.savedError)
  | v =>
      (a, some ("json: cannot unmarshal " ++ v.valueName
                  ++ " into Go value of type main.ApplicationConfig"))

/-- Whether a field holds the zero value of its type. -/
def Field.isZero (f : Field) (a : ApplicationConfig) : Bool :=
  match f with
  | .name => a.Name == ""
  | .description => a.Description == ""
  | .domain => a.Domain == ""
  | .port => a.Port == 0
  | .platform => a.Platform == ""
  | .version => a.Version == ""
  | .source => a.Source == .nil

/-- The framework validator run after decoding.  It reads the struct tag
`binding`; a field tagged `binding:"required"` must not hold its zero value.
The tags `validate` of `ApplicationConfig` are not read. -/
def validateStruct (a : ApplicationConfig) : Option String :=
  match Field.all.find? (fun f => f.tags.lookup "binding" == some "required" && f.isZero a) with
  | some f => some ("ApplicationConfig." ++ f.jsonName ++ " failed on the required tag")
  | none => none

/-- The binder the program runs. -/
def BindJSON (body : RequestBody) (obj : ApplicationConfig) : ApplicationConfig × Option String :=
  match body with
  | .unreadable err => (obj, some err)
  | .json v =>
      match Unmarshal v obj with
      | (a, some err) => (a, some err)
      | (a, none) => (a, validateStruct a)

/-! ## Request sequences -/

/-- The entry a POST of this body stores, if the binder accepts the body. -/
def bound {β : Type} (bind : β → ApplicationConfig → ApplicationConfig × Option String)
    (body : β) : Option ApplicationConfig :=
  match bind body ApplicationConfig.zero with
  | (a, none) => some a
  | (_, some _) => none

/-- The registry after a sequence of POST /applications requests, one after
another. -/
def posts {β : Type} (bind : β → ApplicationConfig → ApplicationConfig × Option String)
    (bodies : List β) (registry : List ApplicationConfig) : List ApplicationConfig :=
  bodies.foldl (fun r body => (createApplication bind body r).2) registry

/-- A request the router dispatches to a handler of the package. -/
inductive Request where
  | health
  | list
  | create (body : RequestBody)

/-- The router: the handler of the request, run on the registry. -/
def serve (req : Request) (registry : List ApplicationConfig) :
    Response × List ApplicationConfig :=
  match req with
  | .health => HealthCheck registry
  | .list => getApplications registry
  | .create body => createApplication BindJSON body registry

/-- The registry after a sequence of requests from a given registry. -/
def serveAll (reqs : List Request) (registry : List ApplicationConfig) :
    List ApplicationConfig :=
  reqs.foldl (fun r req => (serve req r).2) registry

/-! ## Request bodies of the wire format -/

/-- Whether a JSON value is a string. -/
def JSON.isStr : JSON → Bool
  | .str _ => true
  | _ => false

/-- Whether a JSON value is an object with a string member of this key. -/
def JSON.hasStringMember (v : JSON) (key : String) : Bool :=
  match v with
  | .obj members => members.any (fun kv => kv.1 == key && kv.2.isStr)
  | _ => false

/-- The repository shape of `source` on the wire: an object with string
members `repo` and `branch`. -/
def JSON.isGithubShape (v : JSON) : Bool :=
  v.hasStringMember "repo" && v.hasStringMember "branch"

/-- The archive shape of `source` on the wire: an object with a string member
`zip_file`. -/
def JSON.isZipShape (v : JSON) : Bool :=
  v.hasStringMember "zip_file"

/-- A request body of the wire format: all six scalar fields and a `source`. -/
def wireBody (name description domain : String) (port : Int) (platform version : String)
    (source : JSON) : RequestBody :=
  .json (.obj [("name", .str name), ("description", .str description),
               ("domain", .str domain), ("port", .int port), ("platform", .str platform),
               ("version", .str version), ("source", source)])

/-- The member of a request object for a field that may be left out. -/
def optionalMember (key : String) (v : Option JSON) : List (String × JSON) :=
  match v with
  | none => []
  | some v => [(key, v)]

/-- A request body without `source` in which each scalar field is present or
left out. -/
def scalarBody (name description domain : Option String) (port : Option Int)
    (platform version : Option String) : RequestBody :=
  .json (.obj (optionalMember "name" (name.map .str)
    ++ optionalMember "description" (description.map .str)
    ++ optionalMember "domain" (domain.map .str)
    ++ optionalMember "port" (port.map .int)
    ++ optionalMember "platform" (platform.map .str)
    ++ optionalMember "version" (version.map .str)))

/-- Whether a JSON value is of a kind the Go type of the field takes: `null`
for every field, a string for a field of type `string`, an integer literal in
the 64-bit range for the field of type `int`, and nothing but `null` for the
field of the interface type `CodeSourceInfo`. -/
def Field.takes (f : Field) (v : JSON) : Bool :=
  match f, v with
  | _, .null => true
  | .source, _ => false
  | .port, .int n => decide (-(2 ^ 63 : Int) ≤ n ∧ n < (2 ^ 63 : Int))
  | .port, _ => false
  | _, .str _ => true
  | _, _ => false

/-! ## Lemmas on the handlers -/

theorem createApplication_registry {β : Type}
    (bind : β → ApplicationConfig → ApplicationConfig × Option String)
    (body : β) (R : List ApplicationConfig) :
    (createApplication bind body R).2 = R ++ (bound bind body).toList := by
  unfold createApplication bound
  split <;> simp_all

theorem posts_eq {β : Type}
    (bind : β → ApplicationConfig → ApplicationConfig × Option String)
    (bodies : List β) (R : List ApplicationConfig) :
    posts bind bodies R = R ++ bodies.filterMap (bound bind) := by
  induction bodies generalizing R with
  | nil => simp [posts]
  | cons b bs ih =>
    have step : posts bind (b :: bs) R = posts bind bs (createApplication bind b R).2 := rfl
    rw [step, ih, createApplication_registry]
    cases hb : bound bind b <;> simp [List.filterMap_cons, hb]

/-! ## Claims on the handlers -/

/-- C1: when the binder accepts the body and yields the entry `e`,
POST /applications answers 201 with `e`, and the registry afterwards is the
registry before followed by `e`: one entry longer, every earlier entry in its
position, `e` last. -/
theorem createApplication_created {β : Type}
    (bind : β → ApplicationConfig → ApplicationConfig × Option String)
    (body : β) (R : List ApplicationConfig) (e : ApplicationConfig)
    (h : bind body ApplicationConfig.zero = (e, none)) :
    createApplication bind body R = (⟨201, .app e⟩, R ++ [e])
      ∧ (createApplication bind body R).2.length = R.length + 1
      ∧ (∀ i, i < R.length → (createApplication bind body R).2[i]? = R[i]?)
      ∧ (createApplication bind body R).2.getLast? = some e := by
  have hc : createApplication bind body R = (⟨201, .app e⟩, R ++ [e]) := by
    simp [createApplication, h, StatusCreated]
  refine ⟨hc, ?_, ?_, ?_⟩
  · simp [hc]
  · intro i hi
    simp [hc, List.getElem?_append_left hi]
  · simp [hc]

/-- C1, at a concrete request: the body `{"name": "a"}` on the seeded
registry. -/
theorem createApplication_created_witness :
    BindJSON (.json (.obj [("name", .str "a")])) ApplicationConfig.zero
        = ({ ApplicationConfig.zero with Name := "a" }, none)
      ∧ createApplication BindJSON (.json (.obj [("name", .str "a")])) applications
        = (⟨201, .app { ApplicationConfig.zero with Name := "a" }⟩,
           applications ++ [{ ApplicationConfig.zero with Name := "a" }]) :=
  ⟨by decide,
   (createApplication_created BindJSON (.json (.obj [("name", .str "a")])) applications
      { ApplicationConfig.zero with Name := "a" } (by decide)).1⟩

/-- C2: when the binder rejects the body with the error text `err`,
POST /applications answers 400 with the envelope whose name is
"invalid_body", whose message is "Cannot parse body as JSON" and whose error
is `err`, and the registry is unchanged. -/
theorem createApplication_invalid_body {β : Type}
    (bind : β → ApplicationConfig → ApplicationConfig × Option String)
    (body : β) (R : List ApplicationConfig) (a : ApplicationConfig) (err : String)
    (h : bind body ApplicationConfig.zero = (a, some err)) :
    (createApplication bind body R).1.status = 400
      ∧ (createApplication bind body R).1.body
          = .H [("name", "invalid_body"), ("message", "Cannot parse body as JSON"),
                ("error", err)]
      ∧ (createApplication bind body R).1.body.field "name" = some "invalid_body"
      ∧ (createApplication bind body R).1.body.field "message"
          = some "Cannot parse body as JSON"
      ∧ (createApplication bind body R).1.body.field "error" = some err
      ∧ (createApplication bind body R).2 = R
      ∧ (createApplication bind body R).2.length = R.length := by
  have hc : createApplication bind body R
      = (⟨400, .H [("name", "invalid_body"), ("message", "Cannot parse body as JSON"),
                   ("error", err)]⟩, R) := by
    simp [createApplication, h, StatusBadRequest]
  rw [hc]
  refine ⟨rfl, rfl, ?_, ?_, ?_, rfl, rfl⟩ <;> simp [Payload.field, List.find?]

/-- C2, at a concrete request: a truncated body on the seeded registry. -/
theorem createApplication_invalid_body_witness :
    BindJSON (.unreadable "unexpected EOF") ApplicationConfig.zero
        = (ApplicationConfig.zero, some "unexpected EOF")
      ∧ (createApplication BindJSON (.unreadable "unexpected EOF") applications).1.status = 400
      ∧ (createApplication BindJSON (.unreadable "unexpected EOF") applications).1.body.field
          "name" = some "invalid_body"
      ∧ (createApplication BindJSON (.unreadable "unexpected EOF") applications).2
          = applications :=
  have h := createApplication_invalid_body BindJSON (.unreadable "unexpected EOF")
    applications ApplicationConfig.zero "unexpected EOF" (by decide)
  ⟨by decide, h.1, h.2.2.1, h.2.2.2.2.2.1⟩

/-- C3: after any sequence of POST /applications requests from the start
state, GET /applications answers 200 with the two seed entries followed by the
entries of the accepted requests, in request order; the registry has as many
entries as the seed plus the accepted requests; and nothing is deduplicated:
sending a sequence of bodies twice stores its accepted entries twice. -/
theorem posts_then_getApplications {β : Type}
    (bind : β → ApplicationConfig → ApplicationConfig × Option String)
    (bodies : List β) :
    (getApplications (posts bind bodies applications)).1
        = ⟨200, .apps (applications ++ bodies.filterMap (bound bind))⟩
      ∧ (posts bind bodies applications).length
          = 2 + (bodies.filterMap (bound bind)).length
      ∧ posts bind (bodies ++ bodies) applications
          = applications ++ (bodies.filterMap (bound bind) ++ bodies.filterMap (bound bind)) := by
  refine ⟨?_, ?_, ?_⟩
  · simp [getApplications, posts_eq, StatusOK]
  · simp [posts_eq, applications]
    omega
  · simp [posts_eq, List.filterMap_append]

/-- C8: GET /applications answers 200 with the whole registry, entry by entry
in order, and leaves the registry as it was. -/
theorem getApplications_ok (R : List ApplicationConfig) :
    getApplications R = (⟨200, .apps R⟩, R)
      ∧ (getApplications R).1.status = 200
      ∧ (getApplications R).1.body = .apps R
      ∧ (getApplications R).2 = R :=
  ⟨rfl, rfl, rfl, rfl⟩

/-- C9: in the start state GET /applications answers with exactly the two seed
entries, "my-back-end-app" first and "my-front-end-app" second. -/
theorem getApplications_seed :
    (getApplications applications).1
      = ⟨200, .apps
          [ { Name := "my-back-end-app", Description := "My nodejs back-end app",
              Domain := "example.com", Port := 8080, Platform := "NodeJS", Version := "16.x",
              Source := .github
                { Repo := "github.com/username/my-back-end-app", Branch := "main" } },
            { Name := "my-front-end-app", Description := "My react front-end app",
              Domain := "example.com", Port := 80, Platform := "React", Version := "17.x",
              Source := .zip { ZipFile := "https://example.com/my-front-end-app.zip" } } ]⟩
      ∧ applications.length = 2 :=
  ⟨rfl, rfl⟩

/-- C10: `CodeSource()` returns GITHUB on every `GithubSourceInfo` and ZIP on
every `ZipSourceInfo`, whatever the fields hold; GITHUB is 0, ZIP is 1 and they
differ; through the interface the result tells the two variants apart. -/
theorem CodeSource_discriminant :
    (∀ g : GithubSourceInfo, g.CodeSource = GITHUB)
      ∧ (∀ z : ZipSourceInfo, z.CodeSource = ZIP)
      ∧ GITHUB = 0 ∧ ZIP = 1 ∧ GITHUB ≠ ZIP
      ∧ (∀ s : CodeSourceInfo, s.CodeSource = some GITHUB ↔ ∃ g, s = .github g)
      ∧ (∀ s : CodeSourceInfo, s.CodeSource = some ZIP ↔ ∃ z, s = .zip z) := by
  refine ⟨fun _ => rfl, fun _ => rfl, rfl, rfl, by decide, ?_, ?_⟩
  · intro s
    cases s <;>
      simp [CodeSourceInfo.CodeSource, GithubSourceInfo.CodeSource, ZipSourceInfo.CodeSource,
        GITHUB, ZIP]
  · intro s
    cases s <;>
      simp [CodeSourceInfo.CodeSource, GithubSourceInfo.CodeSource, ZipSourceInfo.CodeSource,
        GITHUB, ZIP]

/-! ## Lemmas on the binder -/

theorem saveError_isSome (d : decodeState) (err : String) :
    (d.saveError err).savedError.isSome = true := by
  unfold decodeState.saveError
  split <;> simp_all

theorem saveError_of_some (d : decodeState) (err e : String) (h : d.savedError = some e) :
    (d.saveError err).savedError = some e := by
  unfold decodeState.saveError
  split <;> simp_all

/-- A saved error is never replaced or cleared by a later member. -/
theorem storeValue_of_some (f : Field) (v : JSON) (d : decodeState) (e : String)
    (h : d.savedError = some e) : (storeValue f v d).savedError = some e := by
  cases f <;> cases v <;> simp only [storeValue] <;>
    first
      | exact h
      | exact saveError_of_some _ _ _ h
      | (split <;> first | exact h | exact saveError_of_some _ _ _ h)

theorem storeMember_of_some (d : decodeState) (kv : String × JSON) (e : String)
    (h : d.savedError = some e) : (storeMember d kv).savedError = some e := by
  unfold storeMember
  split
  · exact h
  · exact storeValue_of_some _ _ _ _ h

theorem foldl_storeMember_of_some (ms : List (String × JSON)) (d : decodeState) (e : String)
    (h : d.savedError = some e) : (ms.foldl storeMember d).savedError = some e := by
  induction ms generalizing d with
  | nil => exact h
  | cons kv ms ih => exact ih _ (storeMember_of_some d kv e h)

/-- The field `source` takes no value other than `null`. -/
theorem storeValue_source_isSome (v : JSON) (d : decodeState) (hv : v ≠ .null) :
    (storeValue .source v d).savedError.isSome = true := by
  cases v <;> first | exact absurd rfl hv | exact saveError_isSome _ _

theorem saveError_target (d : decodeState) (err : String) :
    (d.saveError err).target = d.target := by
  unfold decodeState.saveError
  split <;> rfl

/-- No member changes a nil `Source`. -/
theorem storeValue_source_nil (f : Field) (v : JSON) (d : decodeState)
    (h : d.target.Source = .nil) : (storeValue f v d).target.Source = .nil := by
  cases f <;> cases v <;> simp only [storeValue, saveError_target, setString] <;>
    first
      | exact h
      | rfl
      | (split <;> simp only [saveError_target] <;> exact h)

theorem foldl_storeMember_source_nil (ms : List (String × JSON)) (d : decodeState)
    (h : d.target.Source = .nil) : (ms.foldl storeMember d).target.Source = .nil := by
  induction ms generalizing d with
  | nil => exact h
  | cons kv ms ih =>
    apply ih
    unfold storeMember
    split
    · exact h
    · exact storeValue_source_nil _ _ _ h

/-- An object with a member that selects `source` and is not `null` does not
decode. -/
theorem foldl_storeMember_source (ms : List (String × JSON)) (d : decodeState)
    (key : String) (v : JSON) (hmem : (key, v) ∈ ms)
    (hkey : lookupField key = some .source) (hv : v ≠ .null) :
    (ms.foldl storeMember d).savedError.isSome = true := by
  induction ms generalizing d with
  | nil => cases hmem
  | cons kv ms ih =>
    rcases List.mem_cons.mp hmem with heq | hin
    · have hstep : (storeMember d kv).savedError.isSome = true := by
        subst heq
        simp only [storeMember, hkey]
        exact storeValue_source_isSome v d hv
      obtain ⟨e, he⟩ := Option.isSome_iff_exists.mp hstep
      simp [List.foldl_cons, foldl_storeMember_of_some ms _ e he]
    · exact ih _ hin

/-- The validator finds no `binding` tag on `ApplicationConfig`. -/
theorem validateStruct_none (a : ApplicationConfig) : validateStruct a = none := by
  have h : ∀ f : Field, (f.tags.lookup "binding" == some "required") = false := by
    intro f; cases f <;> decide
  simp [validateStruct, Field.all, h]

/-- What the binder yields: the decoder error on an unreadable body, else the
result of `Unmarshal`. -/
theorem BindJSON_json (v : JSON) (a : ApplicationConfig) :
    BindJSON (.json v) a = Unmarshal v a := by
  simp only [BindJSON]
  split <;> rename_i h <;> simp [h, validateStruct_none]

/-- Every entry the binder yields from the zero value has a nil `Source`. -/
theorem BindJSON_source_nil (body : RequestBody) :
    (BindJSON body ApplicationConfig.zero).1.Source = .nil := by
  cases body with
  | unreadable err => rfl
  | json v =>
    rw [BindJSON_json]
    cases v <;> first | rfl | exact foldl_storeMember_source_nil _ _ rfl

/-! ## Claims on the binder the program runs -/

/-- A binder error makes POST /applications answer 400 with the envelope named
"invalid_body" and keep the registry. -/
theorem createApplication_of_error {β : Type}
    (bind : β → ApplicationConfig → ApplicationConfig × Option String)
    (body : β) (R : List ApplicationConfig)
    (h : (bind body ApplicationConfig.zero).2.isSome = true) :
    (createApplication bind body R).1.status = 400
      ∧ (createApplication bind body R).1.body.field "name" = some "invalid_body"
      ∧ (createApplication bind body R).2 = R := by
  rcases hb : bind body ApplicationConfig.zero with ⟨a, _ | err⟩
  · simp [hb] at h
  · simp [createApplication, hb, StatusBadRequest, Payload.field, List.find?]

/-- An object with a member that selects `source` and is not `null` is rejected
by the binder. -/
theorem BindJSON_source_error (members : List (String × JSON)) (key : String) (v : JSON)
    (hmem : (key, v) ∈ members) (hkey : lookupField key = some .source) (hv : v ≠ .null) :
    (BindJSON (.json (.obj members)) ApplicationConfig.zero).2.isSome = true := by
  rw [BindJSON_json]
  exact foldl_storeMember_source members _ key v hmem hkey hv

/-- C4, what the code does: `null` matches neither shape of `source`, yet the
body `{"source": null}` is answered 201 and an entry with a nil `Source` is
stored, where the claim has 400 and an unchanged registry. -/
theorem createApplication_null_source_created :
    JSON.isGithubShape .null = false ∧ JSON.isZipShape .null = false
      ∧ createApplication BindJSON (.json (.obj [("source", .null)])) applications
          = (⟨201, .app ApplicationConfig.zero⟩, applications ++ [ApplicationConfig.zero])
      ∧ ¬ ((createApplication BindJSON (.json (.obj [("source", .null)])) applications).1.status
              = 400
            ∧ (createApplication BindJSON (.json (.obj [("source", .null)])) applications).2
              = applications) := by
  refine ⟨rfl, rfl, by decide, by decide⟩

/-- The sibling path: a JSON object body with a `source` member that is not
`null`, whatever its shape, is answered 400 with the envelope named
"invalid_body", and the registry is unchanged. -/
theorem createApplication_nonnull_source (R : List ApplicationConfig)
    (members : List (String × JSON)) (key : String) (v : JSON)
    (hmem : (key, v) ∈ members) (hkey : lookupField key = some .source) (hnull : v ≠ .null) :
    (createApplication BindJSON (.json (.obj members)) R).1.status = 400
      ∧ (createApplication BindJSON (.json (.obj members)) R).1.body.field "name"
          = some "invalid_body"
      ∧ (createApplication BindJSON (.json (.obj members)) R).2 = R :=
  createApplication_of_error BindJSON _ R (BindJSON_source_error members key v hmem hkey hnull)

/-- C5, what the code does: a body of the wire format whose `source` is
`{"repo": x, "branch": y}` or `{"zip_file": z}` is answered 400 and nothing is
stored, whatever the other fields hold; at a concrete body the error text is
the type error on the field `source`. -/
theorem createApplication_wire_source_rejected (R : List ApplicationConfig)
    (name description domain : String) (port : Int) (platform version x y z : String) :
    ((createApplication BindJSON
          (wireBody name description domain port platform version
            (.obj [("repo", .str x), ("branch", .str y)])) R).1.status = 400
        ∧ (createApplication BindJSON
          (wireBody name description domain port platform version
            (.obj [("repo", .str x), ("branch", .str y)])) R).2 = R)
      ∧ ((createApplication BindJSON
          (wireBody name description domain port platform version
            (.obj [("zip_file", .str z)])) R).1.status = 400
        ∧ (createApplication BindJSON
          (wireBody name description domain port platform version
            (.obj [("zip_file", .str z)])) R).2 = R)
      ∧ createApplication BindJSON
          (wireBody "a" "d" "example.com" 80 "Go" "1.x"
            (.obj [("repo", .str "x"), ("branch", .str "y")])) applications
          = (⟨400, .H [("name", "invalid_body"), ("message", "Cannot parse body as JSON"),
              ("error", "json: cannot unmarshal object into Go struct field ApplicationConfig.source of type main.CodeSourceInfo")]⟩,
             applications) := by
  have hkey : lookupField "source" = some .source := by decide
  refine ⟨?_, ?_, by decide⟩
  · have h := createApplication_of_error BindJSON
      (wireBody name description domain port platform version
        (.obj [("repo", .str x), ("branch", .str y)])) R
      (BindJSON_source_error _ "source" (.obj [("repo", .str x), ("branch", .str y)])
        (by simp) hkey (by simp))
    exact ⟨h.1, h.2.2⟩
  · have h := createApplication_of_error BindJSON
      (wireBody name description domain port platform version (.obj [("zip_file", .str z)])) R
      (BindJSON_source_error _ "source" (.obj [("zip_file", .str z)]) (by simp) hkey (by simp))
    exact ⟨h.1, h.2.2⟩

/-- Every entry a sequence of requests adds to a registry has a nil `Source`:
no request stores a repository or an archive source. -/
theorem serveAll_added_source_nil (reqs : List Request) (R : List ApplicationConfig) :
    ∃ added, serveAll reqs R = R ++ added ∧ ∀ a ∈ added, a.Source = .nil := by
  induction reqs generalizing R with
  | nil => exact ⟨[], by simp [serveAll], by simp⟩
  | cons req reqs ih =>
    have step : serveAll (req :: reqs) R = serveAll reqs (serve req R).2 := rfl
    have hreq : ∃ one, (serve req R).2 = R ++ one ∧ ∀ a ∈ one, a.Source = .nil := by
      cases req with
      | health => exact ⟨[], by simp [serve, HealthCheck], by simp⟩
      | list => exact ⟨[], by simp [serve, getApplications], by simp⟩
      | create body =>
        refine ⟨(bound BindJSON body).toList, by simp [serve, createApplication_registry], ?_⟩
        intro a ha
        have hnil := BindJSON_source_nil body
        unfold bound at ha
        split at ha
        · rename_i e heq
          simp at ha
          subst ha
          rw [heq] at hnil
          exact hnil
        · simp at ha
    obtain ⟨one, hone, hnil1⟩ := hreq
    obtain ⟨rest, hrest, hnil2⟩ := ih (R ++ one)
    refine ⟨one ++ rest, ?_, ?_⟩
    · rw [step, hone, hrest, List.append_assoc]
    · intro a ha
      rcases List.mem_append.mp ha with h | h
      · exact hnil1 a h
      · exact hnil2 a h

/-- C6, what the code does: from the start state, POST /applications with the
body `{}` stores an entry whose `Source` is the nil interface, on which
`CodeSource()` is not defined. -/
theorem serveAll_stores_nil_source :
    serveAll [.create (.json (.obj []))] applications
        = applications ++ [ApplicationConfig.zero]
      ∧ ApplicationConfig.zero.Source = .nil
      ∧ (∃ a ∈ serveAll [.create (.json (.obj []))] applications,
          a.Source = .nil ∧ a.Source.CodeSource = none) := by
  refine ⟨by decide, rfl, ApplicationConfig.zero, by decide, rfl, rfl⟩

theorem lookupField_name : lookupField "name" = some .name := by decide
theorem lookupField_description : lookupField "description" = some .description := by decide
theorem lookupField_domain : lookupField "domain" = some .domain := by decide
theorem lookupField_port : lookupField "port" = some .port := by decide
theorem lookupField_platform : lookupField "platform" = some .platform := by decide
theorem lookupField_version : lookupField "version" = some .version := by decide

/-- A body without `source` in which each scalar field is present or left out
is answered 201 and appended, the fields left out holding their zero value. -/
theorem createApplication_scalarBody (R : List ApplicationConfig)
    (name description domain : Option String) (port : Option Int)
    (platform version : Option String)
    (hport : ∀ n, port = some n → -(2 ^ 63 : Int) ≤ n ∧ n < (2 ^ 63 : Int)) :
    createApplication BindJSON
        (scalarBody name description domain port platform version) R
      = (⟨201, .app
            { Name := name.getD "", Description := description.getD "",
              Domain := domain.getD "", Port := port.getD 0,
              Platform := platform.getD "", Version := version.getD "",
              Source := .nil }⟩,
         R ++ [{ Name := name.getD "", Description := description.getD "",
                 Domain := domain.getD "", Port := port.getD 0,
                 Platform := platform.getD "", Version := version.getD "",
                 Source := .nil }]) := by
  rcases port with _ | n
  · cases name <;> cases description <;> cases domain <;> cases platform <;> cases version <;>
      simp [createApplication, BindJSON, Unmarshal, scalarBody, optionalMember, storeMember,
        storeValue, setString, lookupField_name, lookupField_description, lookupField_domain,
        lookupField_port, lookupField_platform, lookupField_version, validateStruct_none,
        ApplicationConfig.zero, StatusCreated]
  · have hp := hport n rfl
    norm_num at hp
    cases name <;> cases description <;> cases domain <;> cases platform <;> cases version <;>
      simp [createApplication, BindJSON, Unmarshal, scalarBody, optionalMember, storeMember,
        storeValue, setString, lookupField_name, lookupField_description, lookupField_domain,
        lookupField_port, lookupField_platform, lookupField_version, validateStruct_none,
        ApplicationConfig.zero, StatusCreated, hp]

theorem saveError_ne_none (d : decodeState) (err : String) :
    ((d.saveError err).savedError = none) = False := by
  have h := saveError_isSome d err
  cases hs : (d.saveError err).savedError <;> simp_all

/-- One value decodes without error exactly when no error was saved before and
the field takes the value. -/
theorem storeValue_savedError_none (f : Field) (v : JSON) (d : decodeState) :
    (storeValue f v d).savedError = none ↔ d.savedError = none ∧ f.takes v = true := by
  cases f <;> cases v <;> simp only [storeValue, Field.takes, saveError_ne_none] <;>
    first
      | (simp; done)
      | (split <;> simp_all [saveError_ne_none])

theorem storeMember_savedError_none (d : decodeState) (kv : String × JSON) :
    (storeMember d kv).savedError = none
      ↔ d.savedError = none ∧ ∀ f, lookupField kv.1 = some f → f.takes kv.2 = true := by
  unfold storeMember
  split
  · rename_i h
    simp [h]
  · rename_i f h
    simp [h, storeValue_savedError_none]

theorem foldl_storeMember_savedError_none (ms : List (String × JSON)) (d : decodeState) :
    (ms.foldl storeMember d).savedError = none
      ↔ d.savedError = none
        ∧ ∀ kv ∈ ms, ∀ f, lookupField kv.1 = some f → f.takes kv.2 = true := by
  induction ms generalizing d with
  | nil => simp
  | cons kv ms ih =>
    rw [List.foldl_cons, ih, storeMember_savedError_none]
    simp only [List.mem_cons, forall_eq_or_imp]
    tauto

theorem jsonName_length (f : Field) :
    f.jsonName.length = 4 ∨ f.jsonName.length = 6 ∨ f.jsonName.length = 7
      ∨ f.jsonName.length = 8 ∨ f.jsonName.length = 11 := by
  cases f <;> decide

theorem foldName_length (s : String) : (foldName s).length = s.length := by
  simp only [foldName, List.length_map]
  rfl

/-- A key whose length is that of no field name selects no field. -/
theorem lookupField_of_length (key : String)
    (h : key.length ≠ 4 ∧ key.length ≠ 6 ∧ key.length ≠ 7 ∧ key.length ≠ 8
      ∧ key.length ≠ 11) :
    lookupField key = none := by
  have hexact : ∀ f : Field, (f.jsonName == key) = false := by
    intro f
    rw [beq_eq_false_iff_ne]
    intro heq
    have hl : f.jsonName.length = key.length := by rw [heq]
    have hf := jsonName_length f
    omega
  have hfold : ∀ f : Field, (foldName f.jsonName == foldName key) = false := by
    intro f
    rw [beq_eq_false_iff_ne]
    intro heq
    have hl : (foldName f.jsonName).length = (foldName key).length := by rw [heq]
    rw [foldName_length, foldName_length] at hl
    have hf := jsonName_length f
    omega
  simp [lookupField, Field.all, hexact, hfold]

/-- C7: the binder runs no required-field check.
* The validator accepts every `ApplicationConfig`.
* Every JSON body the decoder reads without error is answered 201 with the
  decoded entry and appended, whatever its fields hold; a JSON body is
  answered 400 exactly when the decoder reports an error.
* The decoder reads an object without error exactly when every member that
  selects a field holds a value of a kind the field takes; a missing member,
  an empty string and 0 are no errors.
* A body without `source` in which each of name, description, domain, port,
  platform and version is present or left out is stored with zero values for
  the fields left out.
* The bodies `{"name": null}` and `{"name": "", "comment": 1}` are answered
  201. -/
theorem createApplication_no_required_check :
    (∀ a : ApplicationConfig, validateStruct a = none)
      ∧ (∀ (R : List ApplicationConfig) (v : JSON) (e : ApplicationConfig),
          Unmarshal v ApplicationConfig.zero = (e, none) →
          createApplication BindJSON (.json v) R = (⟨201, .app e⟩, R ++ [e]))
      ∧ (∀ (R : List ApplicationConfig) (v : JSON),
          (createApplication BindJSON (.json v) R).1.status = 400
            ↔ (Unmarshal v ApplicationConfig.zero).2 ≠ none)
      ∧ (∀ members : List (String × JSON),
          (Unmarshal (.obj members) ApplicationConfig.zero).2 = none
            ↔ ∀ kv ∈ members, ∀ f, lookupField kv.1 = some f → f.takes kv.2 = true)
      ∧ (∀ (R : List ApplicationConfig) (name description domain : Option String)
          (port : Option Int) (platform version : Option String),
          (∀ n, port = some n → -(2 ^ 63 : Int) ≤ n ∧ n < (2 ^ 63 : Int)) →
          createApplication BindJSON
              (scalarBody name description domain port platform version) R
            = (⟨201, .app
                  { Name := name.getD "", Description := description.getD "",
                    Domain := domain.getD "", Port := port.getD 0,
                    Platform := platform.getD "", Version := version.getD "",
                    Source := .nil }⟩,
               R ++ [{ Name := name.getD "", Description := description.getD "",
                       Domain := domain.getD "", Port := port.getD 0,
                       Platform := platform.getD "", Version := version.getD "",
                       Source := .nil }]))
      ∧ createApplication BindJSON (.json (.obj [("name", .null)])) applications
          = (⟨201, .app ApplicationConfig.zero⟩, applications ++ [ApplicationConfig.zero])
      ∧ createApplication BindJSON
          (.json (.obj [("name", .str ""), ("comment", .int 1)])) applications
          = (⟨201, .app ApplicationConfig.zero⟩, applications ++ [ApplicationConfig.zero]) := by
  refine ⟨validateStruct_none, ?_, ?_, ?_, ?_, by decide, by decide⟩
  · intro R v e h
    simp [createApplication, BindJSON_json, h, StatusCreated]
  · intro R v
    rcases h : Unmarshal v ApplicationConfig.zero with ⟨e, _ | err⟩ <;>
      simp [createApplication, BindJSON_json, h, StatusCreated, StatusBadRequest]
  · intro members
    have h := foldl_storeMember_savedError_none members ⟨ApplicationConfig.zero, none⟩
    simpa [Unmarshal] using h
  · intro R name description domain port platform version hport
    exact createApplication_scalarBody R name description domain port platform version hport

/-- C7, at concrete requests on the seeded registry: the body
`{"name": "", "port": 0}` decodes without error and is stored, and so is the
body with every field left out but an empty name and port 0. -/
theorem createApplication_no_required_check_witness :
    Unmarshal (.obj [("name", .str ""), ("port", .int 0)]) ApplicationConfig.zero
        = (ApplicationConfig.zero, none)
      ∧ createApplication BindJSON (.json (.obj [("name", .str ""), ("port", .int 0)]))
          applications
        = (⟨201, .app ApplicationConfig.zero⟩, applications ++ [ApplicationConfig.zero])
      ∧ createApplication BindJSON (scalarBody (some "") none none (some 0) none none)
          applications
        = (⟨201, .app ApplicationConfig.zero⟩, applications ++ [ApplicationConfig.zero]) :=
  ⟨by decide,
   createApplication_no_required_check.2.1 applications
     (.obj [("name", .str ""), ("port", .int 0)]) ApplicationConfig.zero (by decide),
   createApplication_no_required_check.2.2.2.2.1 applications (some "") none none (some 0)
     none none (by intro n h; cases h; decide)⟩

/-- C3, at a concrete sequence: the same body twice around a truncated one. -/
theorem posts_then_getApplications_witness :
    (getApplications (posts BindJSON
        [.json (.obj [("name", .str "a")]), .unreadable "unexpected EOF",
         .json (.obj [("name", .str "a")])] applications)).1
      = ⟨200, .apps (applications
          ++ [{ ApplicationConfig.zero with Name := "a" },
              { ApplicationConfig.zero with Name := "a" }])⟩ :=
  (posts_then_getApplications BindJSON
    [.json (.obj [("name", .str "a")]), .unreadable "unexpected EOF",
     .json (.obj [("name", .str "a")])]).1.trans (by decide)

end CloudAppHive
